import Mathlib

/-!
Verification development for the Poly-Alpha-Bot BTC mispricing scanner.

The Python source is shallowly embedded: Python floats are modelled as
exact rationals (ℚ), Python strings as Lean strings manipulated through
their character lists, `None`-able values as `Option`, and raised
exceptions as `Except PyErr`.  Each definition mirrors one function of
the source tree (file and function named in its doc comment).
-/

namespace PolyAlpha

/-! ## Python text primitives -/

/-- Lowercase one character, ASCII range only (Python `str.lower` on the
ASCII inputs that occur in market titles). -/
def lowChar (c : Char) : Char :=
  if 65 ≤ c.toNat ∧ c.toNat ≤ 90 then Char.ofNat (c.toNat + 32) else c

/-- Python `str.lower()` over the character list of a string. -/
def pyLower (l : List Char) : List Char := l.map lowChar

/-- Python's `needle in hay` substring operator. -/
def pyContains : List Char → List Char → Bool
  | _, [] => true
  | [], _ => false
  | c :: t, needle => needle.isPrefixOf (c :: t) || pyContains t needle

/-- Python `any(kw in hay for kw in needles)`. -/
def pyContainsAny (hay : List Char) (needles : List (List Char)) : Bool :=
  needles.any fun n => pyContains hay n

/-- Python `text.replace(",", "")`. -/
def stripCommas (l : List Char) : List Char := l.filter fun c => c ≠ ','

/-- Whitespace test used by Python `str.strip()`. -/
def isWS (c : Char) : Bool := c = ' ' ∨ c = '\t' ∨ c = '\n' ∨ c = '\r'

/-- Python `str.strip()` on a character list. -/
def stripWS (l : List Char) : List Char :=
  ((l.dropWhile isWS).reverse.dropWhile isWS).reverse

/-- Python `s.strip()` producing a string again. -/
def pyStrip (s : String) : String := String.mk (stripWS s.data)

/-- Numeric value of a digit string (most significant first). -/
def digitsToNat (l : List Char) : ℕ :=
  l.foldl (fun a c => 10 * a + (c.toNat - 48)) 0

/-- Model of Python `re.search(r"\d{4,7}", text)`: scan positions left to
right; at the first position where at least 4 consecutive digits start,
match greedily up to 7 of them and return their numeric value. -/
def reSearchD47 : List Char → Option ℕ
  | [] => none
  | c :: t =>
      let run := (c :: t).takeWhile Char.isDigit
      if 4 ≤ run.length then some (digitsToNat (run.take 7)) else reSearchD47 t

/-! ## Data model

`Market` mirrors the dataclass of `src/core/models.py`, produced by
`src/core/parser.py::to_market` and consumed by the strategies through
dynamic `getattr` access.  The extra `markets_group` field models the
dynamic attribute of that name read (with default `""`) by
`Scanner._filter_btc_markets`; the core dataclass never defines it, so
it is `Option` with default `none`. -/

/-- Normalized market record (src/core/models.py `Market`). -/
structure Market where
  id : String := ""
  url : String := ""
  title : String := ""
  question : String := ""
  group : String := ""
  yes_price : Option ℚ := none
  no_price : Option ℚ := none
  end_ts : Option ℤ := none
  tags : List String := []
  markets_group : Option String := none
deriving DecidableEq

/-- Python exceptions that the embedded code can raise. -/
inductive PyErr where
  | typeError
  | zeroDivisionError
  | attributeError
deriving DecidableEq

/-- Opportunity dict returned by `BTCIntraday.score` and
`BTCPriceTargets.score`.  Both strategies return plain Python dicts; the
optional fields model keys present only in the price-target dict (the
`market` back-reference key is omitted: no embedded code reads it). -/
structure Opp where
  title : String := ""
  url : String := ""
  direction : String := ""
  yes_price : ℚ := 0
  no_price : ℚ := 0
  strike : Option ℚ := none
  btc_price : Option ℚ := none
  true_prob : Option ℚ := none
  edge : ℚ := 0
deriving DecidableEq

/-! ## BTCPriceTargets (src/strategies/btc_price_target.py) -/

/-- Text assembled by `BTCPriceTargets._collect_text`: url, title and
question joined by single spaces, lowercased.  All three attributes are
strings on the normalized `Market`, so every part is included. -/
def collectText (m : Market) : List Char :=
  pyLower (m.url.data ++ ' ' :: m.title.data ++ ' ' :: m.question.data)

/-- Keywords required by `BTCPriceTargets.is_btc_price_target`. -/
def targetKeywords : List (List Char) :=
  ["above", "below", "over", "under", "at least", "at most",
   "greater than", "less than"].map String.data

/-- Classifier `BTCPriceTargets.is_btc_price_target`. -/
def is_btc_price_target (m : Market) : Bool :=
  let text := collectText m
  if text.isEmpty then false
  else if ¬ (pyContains text "bitcoin".data || pyContains text "btc".data) then false
  else if ¬ pyContainsAny text targetKeywords then false
  else (reSearchD47 (stripCommas text)).isSome

/-- Title used inside `score`: `getattr(market,"title",None) or
getattr(market,"question",None) or ""` (empty string is falsy). -/
def scoreTitle (m : Market) : String :=
  if m.title = "" then (if m.question = "" then "" else m.question) else m.title

/-- Direction keywords implying YES = finishes above the strike. -/
def aboveKeywords : List (List Char) :=
  ["above", "over", "greater than", "at least"].map String.data

/-- Direction keywords implying YES = finishes below the strike. -/
def belowKeywords : List (List Char) :=
  ["below", "under", "less than", "at most"].map String.data

/-- Direction guess of `BTCPriceTargets.score` from the lowercased title. -/
def targetDirection (tl : List Char) : String :=
  if pyContainsAny tl aboveKeywords then "above"
  else if pyContainsAny tl belowKeywords then "below"
  else "unknown"

/-- Fair-probability heuristic of `BTCPriceTargets.score` (source lines
106-120): `dist = abs(btc_price - strike) / strike`, then a piecewise
`max` formula by direction; unknown direction gives probability 0. -/
def targetTrueProb (dir : String) (btc_price strike : ℚ) : ℚ :=
  let dist := |btc_price - strike| / strike
  if dir = "above" then
    (if btc_price > strike then max (11/20) (9/10 - dist * 2)
     else max (1/20) (1/2 - dist * 2))
  else if dir = "below" then
    (if btc_price < strike then max (11/20) (9/10 - dist * 2)
     else max (1/20) (1/2 - dist * 2))
  else 0

/-- Scorer `BTCPriceTargets.score`.  A zero strike (a title whose first
4-to-7-digit run is all zeros) makes the Python source raise
`ZeroDivisionError` at the `dist` computation; every other path returns
normally. -/
def targetScore (m : Market) (btc_price : ℚ) : Except PyErr (Option Opp) :=
  if ¬ is_btc_price_target m then .ok none
  else
    match m.yes_price, m.no_price with
    | some yes_price, some no_price =>
        match reSearchD47 (stripCommas (scoreTitle m).data) with
        | none => .ok none
        | some k =>
            let strike : ℚ := (k : ℚ)
            let dir := targetDirection (pyLower (scoreTitle m).data)
            if strike = 0 then .error .zeroDivisionError
            else
              let true_prob := targetTrueProb dir btc_price strike
              .ok (some { title := scoreTitle m, url := m.url, direction := dir,
                          yes_price := yes_price, no_price := no_price,
                          strike := some strike, btc_price := some btc_price,
                          true_prob := some true_prob,
                          edge := true_prob - yes_price })
    | _, _ => .ok none

/-! ## BTCIntraday (src/strategies/btc_intraday.py) -/

/-- ASCII apostrophe (codepoint 39), built by codepoint to appear inside
the marker strings below. -/
def apoChar : Char := Char.ofNat 39

/-- Right single quotation mark (codepoint 8217) used by one marker. -/
def rsqChar : Char := Char.ofNat 8217

/-- Marker substrings of `BTCIntraday.is_intraday`. -/
def intradayMarkers : List (List Char) :=
  ["up or down".data, "up/down".data, "price to beat".data, "ends today".data,
   "today".data ++ apoChar :: "s price".data,
   "today".data ++ rsqChar :: "s price".data]

/-- Classifier `BTCIntraday.is_intraday`.  The `if not parts` guard of the
source cannot trigger here: the normalized `Market` always supplies three
string parts, so the joined text is never empty. -/
def is_intraday (m : Market) : Bool :=
  let text := collectText m
  if ¬ (pyContains text "bitcoin".data || pyContains text "btc".data) then false
  else pyContainsAny text intradayMarkers

/-- Direction guess of `BTCIntraday.score` from the lowercased title. -/
def intradayDirection (tl : List Char) : String :=
  if pyContains tl "up".data ∧ ¬ pyContains tl "down".data then "up"
  else if pyContains tl "down".data ∧ ¬ pyContains tl "up".data then "down"
  else "unknown"

/-- Scorer `BTCIntraday.score`: skips quietly without prices, otherwise
returns a dict with a crude edge versus a 0.60 assumed probability when
the spot is already beyond the extracted strike in the implied direction. -/
def intradayScore (m : Market) (btc_price : ℚ) : Except PyErr (Option Opp) :=
  if ¬ is_intraday m then .ok none
  else
    match m.yes_price, m.no_price with
    | some yes_price, some no_price =>
        let dir := intradayDirection (pyLower (scoreTitle m).data)
        let edge : ℚ :=
          match reSearchD47 (stripCommas (scoreTitle m).data) with
          | some k =>
              if dir = "up" ∧ btc_price > (k : ℚ) then 3/5 - yes_price
              else if dir = "down" ∧ btc_price < (k : ℚ) then 3/5 - yes_price
              else 0
          | none => 0
        .ok (some { title := scoreTitle m, url := m.url, direction := dir,
                    yes_price := yes_price, no_price := no_price, edge := edge })
    | _, _ => .ok none

/-! ## Scanner (src/core/scanner.py) -/

/-- Attribute lookup `getattr(o, "edge", ...)` performed by the scanner's
sort key on an opportunity.  Both registered strategies return plain
Python dicts, and dict entries are not attributes, so the lookup always
fails and the default is used. -/
def dictAttrEdge (_o : Opp) : Option ℚ := none

/-- Sort key `lambda o: getattr(o, "edge", 0.0)` of `Scanner.run_scan`. -/
def scanSortKey (o : Opp) : ℚ := (dictAttrEdge o).getD 0

/-- Insertion step of a stable descending sort by `key`: the new element
is placed after every earlier element with a strictly larger key and
before the first element whose key is ≤ its own, as Python's stable
`list.sort(key=..., reverse=True)` does. -/
def insertDesc {α : Type} (key : α → ℚ) (x : α) : List α → List α
  | [] => [x]
  | y :: ys => if key x < key y then y :: insertDesc key x ys else x :: y :: ys

/-- Stable descending sort by `key`, modelling Python
`list.sort(key=..., reverse=True)`. -/
def sortDesc {α : Type} (key : α → ℚ) : List α → List α
  | [] => []
  | x :: xs => insertDesc key x (sortDesc key xs)

/-- Batch scorer `BaseStrategy.score_many`: per-market exceptions are
caught and logged, `None` results are dropped, everything else is kept
in market order. -/
def scoreMany (score : Market → ℚ → Except PyErr (Option Opp))
    (ms : List Market) (p : ℚ) : List Opp :=
  ms.filterMap fun m =>
    match score m p with
    | .ok (some o) => some o
    | .ok none => none
    | .error _ => none

/-- Haystack of `Scanner._filter_btc_markets`: lowercased question, a
space, and the lowercased (and defaulted) `markets_group` attribute.
Neither `url` nor `title` is consulted. -/
def filterBtcHaystack (m : Market) : List Char :=
  pyLower m.question.data ++ ' ' :: pyLower (m.markets_group.getD "").data

/-- Filter `Scanner._filter_btc_markets`. -/
def filter_btc_markets (ms : List Market) : List Market :=
  ms.filter fun m =>
    pyContains (filterBtcHaystack m) "btc".data ||
    pyContains (filterBtcHaystack m) "bitcoin".data

/-- Strategy loop of `Scanner.run_scan`: each strategy's `score_many`
results are appended in registration order; a strategy-level exception
would be caught, but `scoreMany` is total so none occurs. -/
def runStrategies (strats : List (Market → ℚ → Except PyErr (Option Opp)))
    (ms : List Market) (p : ℚ) : List Opp :=
  strats.foldl (fun acc s => acc ++ scoreMany s ms p) []

/-- Scan cycle `Scanner.run_scan`, with the externally fetched market
batch and spot price as inputs: non-positive spot returns the empty
list, an empty BTC filter result returns the empty list, otherwise both
registered strategies run and the result is sorted by the `edge`
attribute (default 0.0) descending. -/
def run_scan (ms : List Market) (btc_price : ℚ) : List Opp :=
  if btc_price ≤ 0 then []
  else
    let btc := filter_btc_markets ms
    if btc.isEmpty then []
    else sortDesc scanSortKey (runStrategies [intradayScore, targetScore] btc btc_price)

/-! ## BTCUpDownStrategy, BTCBase and BTCMacro
(src/strategies/btc_up_down.py, btc_base.py, btc_macro.py).
These operate on the `Market` dataclass of
src/integrations/polymarket_client.py, modelled as `PMarket` with the
resolution datetime as POSIX seconds. -/

/-- Outcome of src/integrations/polymarket_client.py. -/
structure Outcome where
  name : String
  price : ℚ
deriving DecidableEq

/-- Market of src/integrations/polymarket_client.py (debug-only metadata
fields omitted: no embedded code reads them). -/
structure PMarket where
  id : String := ""
  question : String := ""
  url : String := ""
  end_time : ℚ := 0
  outcomes : List Outcome := []
deriving DecidableEq

/-- Scan configuration slice (src/utils/config.py `ScanConfig`). -/
structure ScanCfg where
  min_edge_bp : ℚ := 150
  max_resolution_days : ℚ := 1
deriving DecidableEq

/-- ScoredOpportunity of src/strategies/btc_up_down.py. -/
structure UpDownOpp where
  market : PMarket
  edge_bp : ℚ
  side : String
  fair_prob : ℚ
  yes_price : ℚ
  no_price : ℚ
deriving DecidableEq

/-- ScoredOpportunity of src/strategies/btc_base.py (the `meta` dict is
omitted: `BTCMacro.score` leaves it empty). -/
structure BaseOpp where
  market : PMarket
  edge_bp : ℚ
  side : String
  fair_prob : ℚ
  yes_price : ℚ
  no_price : ℚ
  type : String
deriving DecidableEq

/-- Helper `_days_to_expiry`, with the wall clock `now` made explicit. -/
def days_to_expiry (now end_time : ℚ) : ℚ :=
  max ((end_time - now) / 86400) 0

/-- Patterns of `BTCUpDownStrategy.is_intraday_btc_updown`. -/
def updownPatterns : List (List Char) :=
  ["btc-updown", "btc updown", "btc up/down", "bitcoin up or down",
   "bitcoin-up-or-down", "up or down"].map String.data

/-- Classifier `BTCUpDownStrategy.is_intraday_btc_updown`. -/
def is_intraday_btc_updown (m : PMarket) : Bool :=
  let q := pyLower m.question.data
  let u := pyLower m.url.data
  if ¬ (pyContains q "bitcoin".data || pyContains q "btc".data ||
        pyContains u "btc-".data) then false
  else updownPatterns.any fun pat => pyContains q pat || pyContains u pat

/-- Placeholder estimator `BTCUpDownStrategy.estimate_fair_prob`. -/
def estimate_fair_prob (_m : PMarket) : ℚ := 1/2

/-- Scorer `BTCUpDownStrategy.score_market`. -/
def score_market (cfg : ScanCfg) (now : ℚ) (m : PMarket) : Option UpDownOpp :=
  if ¬ is_intraday_btc_updown m then none
  else if days_to_expiry now m.end_time > cfg.max_resolution_days then none
  else if m.outcomes.length < 2 then none
  else
    match m.outcomes with
    | yes :: no :: _ =>
        let fair := estimate_fair_prob m
        let edge_bp := (fair - yes.price) * 10000
        some { market := m, edge_bp := edge_bp,
               side := if edge_bp > 0 then "YES" else "NO",
               fair_prob := fair, yes_price := yes.price, no_price := no.price }
    | _ => none

/-- Batch loop `BTCUpDownStrategy.find_opportunities`: classify, score,
drop opportunities whose absolute edge is below `min_edge_bp`, and sort
the survivors by absolute edge descending (stable). -/
def find_opportunities (cfg : ScanCfg) (now : ℚ) (ms : List PMarket) : List UpDownOpp :=
  sortDesc (fun o => |o.edge_bp|)
    (ms.filterMap fun m =>
      if is_intraday_btc_updown m then
        match score_market cfg now m with
        | some s => if |s.edge_bp| < cfg.min_edge_bp then none else some s
        | none => none
      else none)

/-- Classifier `BTCBase.is_btc_market`. -/
def is_btc_market (m : PMarket) : Bool :=
  pyContains (pyLower m.question.data) "bitcoin".data ||
  pyContains (pyLower m.question.data) "btc".data ||
  pyContains (pyLower m.url.data) "btc-".data

/-- Keywords excluded by `BTCMacro.score` (handled by other strategies). -/
def macroKeywords : List (List Char) :=
  ["reach", "above", "below", "dip", "up or down", "up/down"].map String.data

/-- Scorer `BTCMacro.score`: neutral 0.5 fair probability for residual
BTC markets. -/
def macroScore (m : PMarket) (_current_price : ℚ) : Option BaseOpp :=
  if ¬ is_btc_market m then none
  else if pyContainsAny (pyLower m.question.data) macroKeywords then none
  else if m.outcomes.length < 2 then none
  else
    match m.outcomes with
    | yes :: no :: _ =>
        let fair : ℚ := 1/2
        let edge_bp := (fair - yes.price) * 10000
        some { market := m, edge_bp := edge_bp,
               side := if edge_bp > 0 then "YES" else "NO",
               fair_prob := fair, yes_price := yes.price, no_price := no.price,
               type := "macro" }
    | _ => none

/-! ## Python value model for raw payloads

Raw market payloads are arbitrary JSON-like Python values.  `PyVal`
covers the shapes the parsers inspect; dicts are association lists with
first-match lookup. -/

/-- Loosely-typed Python/JSON value. -/
inductive PyVal where
  | vNone
  | vBool (b : Bool)
  | vNum (q : ℚ)
  | vStr (s : String)
  | vList (items : List PyVal)
  | vDict (entries : List (String × PyVal))

/-- Python `d.get(key)` (default `None`). -/
def dictGet : List (String × PyVal) → String → PyVal
  | [], _ => .vNone
  | (k, v) :: t, key => if k = key then v else dictGet t key

/-- Keyword-argument lookup (present or not). -/
def kwLookup : List (String × PyVal) → String → Option PyVal
  | [], _ => none
  | (k, v) :: t, key => if k = key then some v else kwLookup t key

/-- Python truthiness. -/
def pyTruthy : PyVal → Bool
  | .vNone => false
  | .vBool b => b
  | .vNum q => decide (q ≠ 0)
  | .vStr s => !s.data.isEmpty
  | .vList l => !l.isEmpty
  | .vDict d => !d.isEmpty

/-- Python `a or b`: `a` when truthy, otherwise `b`. -/
def pyOr (a b : PyVal) : PyVal := if pyTruthy a then a else b

/-- Decimal rendering of a rational.  The integer-valued case matches
Python `str()` of a JSON integer; the fractional rendering differs from
Python float repr and is exercised by no theorem. -/
def ratStr (q : ℚ) : String :=
  if q.den = 1 then toString q.num else toString q.num ++ "/" ++ toString q.den

/-- Python `str(x)`.  The list/dict renderings are placeholders: no
embedded call site and no theorem applies `str` to a list or dict. -/
def pyToStr : PyVal → String
  | .vStr s => s
  | .vNone => "None"
  | .vBool true => "True"
  | .vBool false => "False"
  | .vNum q => ratStr q
  | .vList _ => "[...]"
  | .vDict _ => "\x7b...\x7d"

/-- Unsigned decimal literal accepted by Python `float(str)`: digits with
an optional single dot (`"12"`, `"12."`, `".5"`).  Exponent and
inf/nan forms are not modelled; no payload in this development uses
them. -/
def parseUnsignedDecimal (l : List Char) : Option ℚ :=
  let intPart := l.takeWhile Char.isDigit
  let rest := l.drop intPart.length
  match rest with
  | [] => if intPart.isEmpty then none else some (digitsToNat intPart)
  | '.' :: frac =>
      if frac.all Char.isDigit ∧ (¬ intPart.isEmpty ∨ ¬ frac.isEmpty) then
        some ((digitsToNat intPart : ℚ) + (digitsToNat frac : ℚ) / (10 : ℚ) ^ frac.length)
      else none
  | _ => none

/-- Python `float(str)` with surrounding whitespace and one sign. -/
def parseDecimal (s : String) : Option ℚ :=
  match stripWS s.data with
  | '+' :: r => parseUnsignedDecimal r
  | '-' :: r => (parseUnsignedDecimal r).map (fun q => -q)
  | r => parseUnsignedDecimal r

/-- Coercion `_flt` of src/core/parser.py: `None` stays absent, floats
pass through, booleans coerce (Python `float(True) = 1.0`), strings
parse decimally, anything else fails to `None`. -/
def pyFlt : PyVal → Option ℚ
  | .vNone => none
  | .vNum q => some q
  | .vBool b => some (if b then 1 else 0)
  | .vStr s => parseDecimal s
  | .vList _ => none
  | .vDict _ => none

/-- Coercion `_int` of src/core/parser.py: floats truncate toward zero,
only pure digit strings parse. -/
def pyInt : PyVal → Option ℤ
  | .vNone => none
  | .vNum q => some (q.num.tdiv (q.den : ℤ))
  | .vBool b => some (if b then 1 else 0)
  | .vStr s =>
      (match stripWS s.data with
       | '+' :: r => if ¬ r.isEmpty ∧ r.all Char.isDigit then some ((digitsToNat r : ℤ)) else none
       | '-' :: r => if ¬ r.isEmpty ∧ r.all Char.isDigit then some (-(digitsToNat r : ℤ)) else none
       | r => if ¬ r.isEmpty ∧ r.all Char.isDigit then some ((digitsToNat r : ℤ)) else none)
  | .vList _ => none
  | .vDict _ => none

/-- Coercion `_s` of src/core/parser.py: strings are stripped, anything
else becomes the empty string. -/
def pyS : PyVal → String
  | .vStr s => pyStrip s
  | _ => ""

/-- Tag extraction of src/core/parser.py::to_market: iterate the raw
value keeping `isinstance(t, str)` elements.  Iterating a string yields
its one-character strings (all `str`), iterating a dict yields its keys;
iterating a number, boolean or `None` raises `TypeError`. -/
def iterTags : PyVal → Except PyErr (List String)
  | .vList l => .ok (l.filterMap fun v => match v with | .vStr s => some s | _ => none)
  | .vStr s => .ok (s.data.map fun c => String.mk [c])
  | .vDict d => .ok (d.map fun kv => kv.1)
  | .vBool _ => .error .typeError
  | .vNum _ => .error .typeError
  | .vNone => .error .typeError

/-! ## Core parser (src/core/parser.py) -/

/-- Field extraction of `to_market` once the working dict `mkt` is
fixed.  Each field mirrors one `or`-chain of aliased keys in the
source; the dynamic `markets_group` attribute is never set by the
parser. -/
def to_market_fields (mkt : List (String × PyVal)) : Except PyErr Market :=
  match iterTags (pyOr (dictGet mkt "tags") (.vList [])) with
  | .error e => .error e
  | .ok tags => .ok
      { id := pyToStr (pyOr (dictGet mkt "id") (pyOr (dictGet mkt "slug")
          (pyOr (dictGet mkt "conditionId") (pyOr (dictGet mkt "questionId") (.vStr ""))))),
        url := pyS (pyOr (dictGet mkt "url") (pyOr (dictGet mkt "link") (dictGet mkt "pageUrl"))),
        title := pyS (dictGet mkt "title"),
        question := pyS (pyOr (dictGet mkt "question") (dictGet mkt "name")),
        group := pyS (pyOr (dictGet mkt "group") (pyOr (dictGet mkt "event")
          (pyOr (dictGet mkt "tournament") (dictGet mkt "collection")))),
        yes_price := pyFlt (pyOr (dictGet mkt "yesPrice") (pyOr (dictGet mkt "yes_probability")
          (pyOr (dictGet mkt "yes_prob") (dictGet mkt "buy_yes")))),
        no_price := pyFlt (pyOr (dictGet mkt "noPrice") (pyOr (dictGet mkt "no_probability")
          (pyOr (dictGet mkt "no_prob") (dictGet mkt "buy_no")))),
        end_ts := pyInt (pyOr (dictGet mkt "endDate") (pyOr (dictGet mkt "endTime")
          (pyOr (dictGet mkt "resolutionTime") (dictGet mkt "closeTime")))),
        tags := tags,
        markets_group := none }

/-- Normalizer `to_market` of src/core/parser.py: `mkt = row.get("market")
or row`, then field extraction.  A truthy non-dict `"market"` value makes
the source raise `AttributeError` at `mkt.get`. -/
def to_market (row : List (String × PyVal)) : Except PyErr Market :=
  match dictGet row "market" with
  | .vDict d => if d.isEmpty then to_market_fields row else to_market_fields d
  | v => if pyTruthy v then .error .attributeError else to_market_fields row

/-- Batch normalizer `parse_markets` of src/core/parser.py: non-lists
give `[]`, non-dict items are skipped, and a raised exception for one
row is swallowed so the rest of the batch survives. -/
def core_parse_markets (raw : PyVal) : List Market :=
  match raw with
  | .vList items =>
      items.filterMap fun it =>
        match it with
        | .vDict d => (to_market d).toOption
        | _ => none
  | _ => []

/-! ## Legacy parser (src/parser.py) and dynamic Market (src/models.py)

`src/parser.py::parse_markets` builds instances of the dynamic `Market`
class of src/models.py, whose `__init__(self, id, question, url=None,
group=None, outcomes=None, **extra)` has two required parameters.  The
construction is modelled faithfully as a keyword-argument call that
raises `TypeError` when a required parameter is missing. -/

/-- Instance of the dynamic `Market` class of src/models.py: the named
parameters plus the `**extra` attributes attached by `__init__`. -/
structure DynMarket where
  id : PyVal
  question : PyVal
  url : PyVal := .vNone
  group : PyVal := .vNone
  outcomes : PyVal := .vList []
  extra : List (String × PyVal) := []

/-- Keyword call of `Market.__init__` (src/models.py): `id` and
`question` have no default, so a call that binds neither raises
`TypeError`; `outcomes` falls back to `[]` when falsy, and every other
keyword is attached verbatim as an attribute. -/
def dynMarketInit (kwargs : List (String × PyVal)) : Except PyErr DynMarket :=
  match kwLookup kwargs "id", kwLookup kwargs "question" with
  | some i, some q =>
      let rawOut := (kwLookup kwargs "outcomes").getD .vNone
      .ok { id := i, question := q,
            url := (kwLookup kwargs "url").getD .vNone,
            group := (kwLookup kwargs "group").getD .vNone,
            outcomes := if pyTruthy rawOut then rawOut else .vList [],
            extra := kwargs.filter fun kv =>
              decide (¬ (kv.1 = "id" ∨ kv.1 = "question" ∨ kv.1 = "url" ∨
                         kv.1 = "group" ∨ kv.1 = "outcomes")) }
  | _, _ => .error .typeError

/-- Helper `_safe_float` of src/parser.py (default 0.0). -/
def safe_float (v : PyVal) : ℚ := (pyFlt v).getD 0

/-- Helper `_normalize_outcomes` of src/parser.py. -/
def normalize_outcomes : PyVal → List String
  | .vList l => l.map pyToStr
  | .vDict d => d.map fun kv => kv.1
  | _ => []

/-- Python `s.startswith("http")`. -/
def startsWithHttp (s : String) : Bool := "http".data.isPrefixOf s.data

/-- Helper `_build_url` of src/parser.py. -/
def build_url (slug : String) (raw : List (String × PyVal)) : String :=
  let rest :=
    let slug2 := if slug = "" then pyStrip (pyToStr (pyOr (dictGet raw "id") (.vStr ""))) else slug
    let event_slug := pyOr (dictGet raw "eventSlug") (dictGet raw "questionSlug")
    match event_slug with
    | .vStr es =>
        if es ≠ "" then "https://polymarket.com/event/" ++ es
        else if slug2 ≠ "" then "https://polymarket.com/event/" ++ slug2 else ""
    | _ => if slug2 ≠ "" then "https://polymarket.com/event/" ++ slug2 else ""
  match dictGet raw "url" with
  | .vStr s => if startsWithHttp s then s else rest
  | _ => rest

/-- Per-item body of `parse_markets` (src/parser.py): derive the
identifier, slug and title, skip on an empty title, then construct the
dynamic Market.  The construction never binds `question`, so it raises
`TypeError` for every item that reaches it. -/
def src_parse_item (raw : List (String × PyVal)) (idx : ℕ) : Except PyErr (Option DynMarket) :=
  let market_id := pyToStr (pyOr (dictGet raw "id") (pyOr (dictGet raw "_id")
    (pyOr (dictGet raw "conditionId") (pyOr (dictGet raw "marketId")
      (.vStr ("unknown-" ++ toString idx))))))
  let slug := pyStrip (pyToStr (pyOr (dictGet raw "slug")
    (pyOr (dictGet raw "questionSlug") (.vStr market_id))))
  let title := pyStrip (pyToStr (pyOr (dictGet raw "title") (pyOr (dictGet raw "question")
    (pyOr (dictGet raw "name") (pyOr (dictGet raw "description") (.vStr ""))))))
  if title = "" then .ok none
  else
    let url := build_url slug raw
    let outcomes := normalize_outcomes (dictGet raw "outcomes")
    let volume := safe_float (pyOr (dictGet raw "volume")
      (pyOr (dictGet raw "volume24h") (dictGet raw "totalVolume")))
    let liquidity := safe_float (pyOr (dictGet raw "liquidity")
      (pyOr (dictGet raw "openInterest") (dictGet raw "poolLiquidity")))
    let end_date0 := pyOr (dictGet raw "endDate") (pyOr (dictGet raw "expiryDate")
      (pyOr (dictGet raw "resolveTime") (dictGet raw "deadline")))
    let end_date := match end_date0 with
      | .vNum q => PyVal.vStr (ratStr q)
      | .vBool b => PyVal.vStr (pyToStr (.vBool b))
      | v => v
    let resolved := pyTruthy (pyOr (dictGet raw "resolved") (pyOr (dictGet raw "closed")
      (pyOr (dictGet raw "isResolved") (dictGet raw "isClosed"))))
    match dynMarketInit
      [("id", .vStr market_id), ("slug", .vStr slug), ("title", .vStr title),
       ("url", if url = "" then .vNone else .vStr url),
       ("outcomes", .vList (outcomes.map PyVal.vStr)),
       ("volume", .vNum volume), ("liquidity", .vNum liquidity),
       ("end_date", match end_date with | .vNone => PyVal.vNone | v => PyVal.vStr (pyToStr v)),
       ("resolved", .vBool resolved), ("raw", .vDict raw)] with
    | .ok m => .ok (some m)
    | .error e => .error e

/-- Item loop of `parse_markets` (src/parser.py): non-dict items and
empty-title items are skipped, but there is no `try/except` around the
`Market(...)` construction, so its `TypeError` aborts the whole batch. -/
def src_parse_list : List PyVal → ℕ → Except PyErr (List DynMarket)
  | [], _ => .ok []
  | it :: rest, idx =>
      match it with
      | .vDict raw =>
          (match src_parse_item raw idx with
           | .error e => .error e
           | .ok none => src_parse_list rest (idx + 1)
           | .ok (some m) =>
               match src_parse_list rest (idx + 1) with
               | .error e => .error e
               | .ok ms => .ok (m :: ms))
      | _ => src_parse_list rest (idx + 1)

/-- Batch parser `parse_markets` of src/parser.py. -/
def src_parse_markets (raw_markets : PyVal) : Except PyErr (List DynMarket) :=
  match raw_markets with
  | .vList items => src_parse_list items 0
  | _ => .ok []

/-! ## Specification-side definition for the BTC-relevance claim -/

/-- BTC relevance as the specification words it: a case-insensitive
substring match for "btc" or "bitcoin" across the concatenation of
title/question, url and group.  Written from the claim for comparison
with the source-derived `filter_btc_markets`. -/
def claimBtcRelevant (m : Market) : Bool :=
  let hay := pyLower (m.title.data ++ ' ' :: m.question.data ++
    ' ' :: m.url.data ++ ' ' :: m.group.data)
  pyContains hay "btc".data || pyContains hay "bitcoin".data

/-! ## Concrete inputs used by witnesses and counterexamples -/

/-- Price-target market quoted near its modelled probability. -/
def mB : Market := { question := "Will btc be above 50000?",
                     yes_price := some (27/50), no_price := some (23/50) }

/-- Price-target market with a strongly negative signed edge. -/
def mA : Market := { question := "Will btc be above 50000?",
                     yes_price := some (89/100), no_price := some (11/100) }

/-- Market whose first digit run is `0000`: extracted strike 0. -/
def bZero : Market := { question := "Will btc stay above 0000?",
                        yes_price := some (3/10), no_price := some (7/10) }

/-- Market phrased with the directional keyword `reach` only. -/
def reachM : Market := { question := "Will Bitcoin reach 150000 in 2026?",
                         yes_price := some (3/10), no_price := some (7/10) }

/-- Market classified as a price target through its url, with no
direction keyword in the scored title. -/
def atM : Market := { question := "Bitcoin at 100000 by June?",
                      url := "https://polymarket.com/event/btc-above-100000",
                      yes_price := some (2/5), no_price := some (3/5) }

/-- Market mentioning BTC only in its url. -/
def mUrlBtc : Market := { question := "Will it rain in Paris?",
                          url := "https://polymarket.com/event/btc-updown-15m" }

/-- Market with no YES quote. -/
def mNoPrice : Market := { question := "Will btc be above 50000?",
                           no_price := some (1/2) }

/-- Intraday up/down market for the up-down strategy. -/
def pmUp : PMarket := { question := "Bitcoin up or down on November 14?",
                        end_time := 3600,
                        outcomes := [⟨"Yes", 3/10⟩, ⟨"No", 7/10⟩] }

/-- Default scan configuration values (src/utils/config.py). -/
def cfgDefault : ScanCfg := {}

/-- Raw payload carrying 0 on the last YES alias `buy_yes`. -/
def rowBuyYesZero : List (String × PyVal) :=
  [("id", .vStr "m1"), ("question", .vStr "Will btc be above 50000?"),
   ("buy_yes", .vNum 0), ("noPrice", .vNum 1)]

/-- Raw payload carrying 0 on the first YES alias `yesPrice`. -/
def rowYesPriceZero : List (String × PyVal) :=
  [("id", .vStr "m2"), ("question", .vStr "Will btc be above 50000?"),
   ("yesPrice", .vNum 0), ("noPrice", .vNum 1)]

/-- Raw batch on which src/parser.py::parse_markets raises. -/
def rawBatchC1 : PyVal :=
  .vList [.vDict [("id", .vStr "m1"), ("title", .vStr "Bitcoin above 100000?")]]

/-- Opportunity dict produced by the price-target strategy on `mB` at
spot 60000. -/
def oppB : Opp :=
  { title := "Will btc be above 50000?", url := "", direction := "above",
    yes_price := 27/50, no_price := 23/50, strike := some 50000,
    btc_price := some 60000, true_prob := some (11/20), edge := 1/100 }

/-- Opportunity dict produced by the price-target strategy on `mA` at
spot 60000. -/
def oppA : Opp :=
  { title := "Will btc be above 50000?", url := "", direction := "above",
    yes_price := 89/100, no_price := 11/100, strike := some 50000,
    btc_price := some 60000, true_prob := some (11/20), edge := -(17/50) }

/-- Opportunity dict produced by the price-target strategy on `atM` at
spot 100000: unknown direction, probability 0. -/
def oppAt : Opp :=
  { title := "Bitcoin at 100000 by June?",
    url := "https://polymarket.com/event/btc-above-100000",
    direction := "unknown", yes_price := 2/5, no_price := 3/5,
    strike := some 100000, btc_price := some 100000,
    true_prob := some 0, edge := -(2/5) }

/-- Opportunity returned by the up/down strategy on `pmUp` at `now = 0`
under the default configuration. -/
def upOpp : UpDownOpp :=
  { market := pmUp, edge_bp := 2000, side := "YES", fair_prob := 1/2,
    yes_price := 3/10, no_price := 7/10 }

/-- Market normalized from `rowBuyYesZero`: the zero on the final alias
survives as price 0.0. -/
def mBuy0 : Market := { id := "m1", question := "Will btc be above 50000?",
                        yes_price := some 0, no_price := some 1 }

/-- Market normalized from `rowYesPriceZero`: the zero on a non-final
alias falls through to an absent price. -/
def mYes0 : Market := { id := "m2", question := "Will btc be above 50000?",
                        yes_price := none, no_price := some 1 }

/-- Opportunity dict produced by the price-target strategy on `mBuy0` at
spot 60000: the market is scored at a quoted YES price of 0. -/
def oppBuy0 : Opp :=
  { title := "Will btc be above 50000?", url := "", direction := "above",
    yes_price := 0, no_price := 1, strike := some 50000,
    btc_price := some 60000, true_prob := some (11/20), edge := 11/20 }

/-- Opportunity dict produced by the price-target strategy on `mB` when
the spot equals the extracted strike. -/
def oppBEq : Opp :=
  { title := "Will btc be above 50000?", url := "", direction := "above",
    yes_price := 27/50, no_price := 23/50, strike := some 50000,
    btc_price := some 50000, true_prob := some (1/2), edge := -(1/25) }

/-! ## Helper lemmas -/

/-- Evaluation rule for `targetScore` on the successful path. -/
theorem targetScore_eval (m : Market) (p yp np : ℚ) (k : ℕ)
    (hc : is_btc_price_target m = true)
    (hy : m.yes_price = some yp) (hn : m.no_price = some np)
    (hk : reSearchD47 (stripCommas (scoreTitle m).data) = some k)
    (hk0 : (k : ℚ) ≠ 0) :
    targetScore m p = .ok (some
      { title := scoreTitle m, url := m.url,
        direction := targetDirection (pyLower (scoreTitle m).data),
        yes_price := yp, no_price := np,
        strike := some (k : ℚ), btc_price := some p,
        true_prob := some (targetTrueProb
          (targetDirection (pyLower (scoreTitle m).data)) p (k : ℚ)),
        edge := targetTrueProb
          (targetDirection (pyLower (scoreTitle m).data)) p (k : ℚ) - yp }) := by
  unfold targetScore
  rw [hc, hy, hn, hk]
  simp [hk0]

/-- Inversion rule for `targetScore`: a returned opportunity determines
every field from the market text, the quoted prices and the spot. -/
theorem targetScore_ok_inv (m : Market) (p : ℚ) (r : Opp)
    (h : targetScore m p = .ok (some r)) :
    ∃ (yp np : ℚ) (k : ℕ),
      m.yes_price = some yp ∧ m.no_price = some np ∧
      reSearchD47 (stripCommas (scoreTitle m).data) = some k ∧ (k : ℚ) ≠ 0 ∧
      r = { title := scoreTitle m, url := m.url,
            direction := targetDirection (pyLower (scoreTitle m).data),
            yes_price := yp, no_price := np,
            strike := some (k : ℚ), btc_price := some p,
            true_prob := some (targetTrueProb
              (targetDirection (pyLower (scoreTitle m).data)) p (k : ℚ)),
            edge := targetTrueProb
              (targetDirection (pyLower (scoreTitle m).data)) p (k : ℚ) - yp } := by
  unfold targetScore at h
  by_cases hc : is_btc_price_target m
  swap
  · simp [hc] at h
  rcases hym : m.yes_price with _ | yp
  · simp [hc, hym] at h
  rcases hnm : m.no_price with _ | np
  · simp [hc, hym, hnm] at h
  rcases hks : reSearchD47 (stripCommas (scoreTitle m).data) with _ | k
  · simp [hc, hym, hnm, hks] at h
  by_cases hk0 : (k : ℚ) = 0
  · simp [hc, hym, hnm, hks, hk0] at h
  · refine ⟨yp, np, k, rfl, rfl, rfl, hk0, ?_⟩
    simp [hc, hym, hnm, hks, hk0] at h
    exact h.symm

end PolyAlpha

namespace PolyAlpha

/-- Inserting into a sorted-descending list is a permutation of consing. -/
theorem insertDesc_perm {α : Type} (key : α → ℚ) (x : α) (l : List α) :
    (insertDesc key x l).Perm (x :: l) := by
  induction l with
  | nil => simp [insertDesc]
  | cons y ys ih =>
      by_cases h : key x < key y
      · simp only [insertDesc, if_pos h]
        exact (List.Perm.cons y ih).trans (List.Perm.swap x y ys)
      · simp [insertDesc, if_neg h]

/-- Stable descending sort permutes its input. -/
theorem sortDesc_perm {α : Type} (key : α → ℚ) (l : List α) :
    (sortDesc key l).Perm l := by
  induction l with
  | nil => simp [sortDesc]
  | cons x xs ih =>
      exact (insertDesc_perm key x (sortDesc key xs)).trans (ih.cons x)

/-- Insertion preserves the descending pairwise order. -/
theorem insertDesc_pairwise {α : Type} (key : α → ℚ) (x : α) (l : List α)
    (h : l.Pairwise (fun a b => key b ≤ key a)) :
    (insertDesc key x l).Pairwise (fun a b => key b ≤ key a) := by
  induction l with
  | nil => simp [insertDesc]
  | cons y ys ih =>
      rw [List.pairwise_cons] at h
      obtain ⟨hy, hys⟩ := h
      by_cases hxy : key x < key y
      · simp only [insertDesc, if_pos hxy]
        refine List.Pairwise.cons ?_ (ih hys)
        intro b hb
        rcases List.mem_cons.mp ((insertDesc_perm key x ys).mem_iff.mp hb) with rfl | hb2
        · exact le_of_lt hxy
        · exact hy b hb2
      · push_neg at hxy
        simp only [insertDesc, if_neg (not_lt.mpr hxy)]
        refine List.Pairwise.cons ?_ (List.Pairwise.cons hy hys)
        intro b hb
        rcases List.mem_cons.mp hb with rfl | hb'
        · exact hxy
        · exact le_trans (hy b hb') hxy

/-- Stable descending sort yields a descending pairwise order. -/
theorem sortDesc_pairwise {α : Type} (key : α → ℚ) (l : List α) :
    (sortDesc key l).Pairwise (fun a b => key b ≤ key a) := by
  induction l with
  | nil => simp [sortDesc]
  | cons x xs ih => exact insertDesc_pairwise key x _ ih

/-- Insertion never reorders elements of any fixed key value. -/
theorem insertDesc_filter {α : Type} (key : α → ℚ) (c : ℚ) (x : α) (l : List α) :
    (insertDesc key x l).filter (fun a => decide (key a = c)) =
    ((x :: l).filter (fun a => decide (key a = c))) := by
  induction l with
  | nil => simp [insertDesc]
  | cons y ys ih =>
      by_cases hxy : key x < key y
      · simp only [insertDesc, if_pos hxy]
        by_cases hx : key x = c
        · have hy : ¬ (key y = c) := by rw [← hx]; exact ne_of_gt hxy
          simp [List.filter_cons, hx, hy] at ih ⊢
          exact ih
        · simp [List.filter_cons, hx] at ih ⊢
          rw [ih]
      · simp [insertDesc, if_neg hxy]

/-- Stability: the sort preserves the relative order of all elements
sharing one key value. -/
theorem sortDesc_filter {α : Type} (key : α → ℚ) (c : ℚ) (l : List α) :
    (sortDesc key l).filter (fun a => decide (key a = c)) =
    l.filter (fun a => decide (key a = c)) := by
  induction l with
  | nil => simp [sortDesc]
  | cons x xs ih =>
      rw [sortDesc, insertDesc_filter]
      simp [List.filter_cons, ih]

/-- The scanner's sort key is the constant 0, so its sort is the
identity: production order is preserved unchanged. -/
theorem sortDesc_scanKey_id (l : List Opp) : sortDesc scanSortKey l = l := by
  induction l with
  | nil => rfl
  | cons x xs ih =>
      have h : insertDesc scanSortKey x (sortDesc scanSortKey xs) =
          x :: sortDesc scanSortKey xs := by
        cases hs : sortDesc scanSortKey xs with
        | nil => rfl
        | cons y ys => simp [insertDesc, scanSortKey, dictAttrEdge]
      rw [sortDesc, h, ih]

end PolyAlpha

namespace PolyAlpha

/-- Unclassified markets are skipped by the price-target scorer. -/
theorem targetScore_not_classified (m : Market) (p : ℚ)
    (hc : is_btc_price_target m = false) : targetScore m p = .ok none := by
  unfold targetScore
  rw [hc]
  simp

/-- Markets without both quotes are skipped by the price-target scorer. -/
theorem targetScore_skip_price (m : Market) (p : ℚ)
    (h : m.yes_price = none ∨ m.no_price = none) : targetScore m p = .ok none := by
  unfold targetScore
  rcases hy : m.yes_price with _ | yp
  · rcases hn : m.no_price with _ | np
    · split
      · rfl
      · rfl
    · split
      · rfl
      · rfl
  · rcases hn : m.no_price with _ | np
    · split
      · rfl
      · rfl
    · rw [hy, hn] at h
      simp at h

/-- Markets without both quotes are skipped by the intraday scorer. -/
theorem intradayScore_skip_price (m : Market) (p : ℚ)
    (h : m.yes_price = none ∨ m.no_price = none) : intradayScore m p = .ok none := by
  unfold intradayScore
  rcases hy : m.yes_price with _ | yp
  · rcases hn : m.no_price with _ | np
    · split
      · rfl
      · rfl
    · split
      · rfl
      · rfl
  · rcases hn : m.no_price with _ | np
    · split
      · rfl
      · rfl
    · rw [hy, hn] at h
      simp at h

/-- Unclassified markets are skipped by the intraday scorer. -/
theorem intradayScore_not_classified (m : Market) (p : ℚ)
    (hc : is_intraday m = false) : intradayScore m p = .ok none := by
  unfold intradayScore
  rw [hc]
  simp

/-- Range of the price-target heuristic for a positive strike. -/
theorem targetTrueProb_mem_unit (dir : String) (p k : ℚ) (hk : 0 < k) :
    0 ≤ targetTrueProb dir p k ∧ targetTrueProb dir p k ≤ 1 := by
  have hd : 0 ≤ |p - k| / k := div_nonneg (abs_nonneg _) (le_of_lt hk)
  simp only [targetTrueProb]
  constructor
  · split_ifs <;>
      first
        | exact le_trans (by norm_num) (le_max_left _ _)
        | norm_num
  · split_ifs <;>
      first
        | exact max_le (by norm_num) (by linarith)
        | norm_num

/-- Zero extracted strike makes the price-target scorer raise. -/
theorem targetScore_zero_strike (m : Market) (p yp np : ℚ)
    (hc : is_btc_price_target m = true)
    (hy : m.yes_price = some yp) (hn : m.no_price = some np)
    (hk : reSearchD47 (stripCommas (scoreTitle m).data) = some 0) :
    targetScore m p = .error .zeroDivisionError := by
  unfold targetScore
  rw [hc, hy, hn, hk]
  simp

/-- Macro estimator inversion: every returned fair probability is 1/2. -/
theorem macroScore_fair_half (pm : PMarket) (cp : ℚ) (b : BaseOpp)
    (hb : macroScore pm cp = some b) : b.fair_prob = 1/2 := by
  unfold macroScore at hb
  split at hb
  · exact absurd hb (by simp)
  · split at hb
    · exact absurd hb (by simp)
    · split at hb
      · exact absurd hb (by simp)
      · split at hb
        · obtain rfl := Option.some.inj hb
          rfl
        · exact absurd hb (by simp)

/-- Membership is invariant under the stable descending sort. -/
theorem sortDesc_mem_iff {α : Type} (key : α → ℚ) (a : α) (l : List α) :
    a ∈ sortDesc key l ↔ a ∈ l :=
  (sortDesc_perm key l).mem_iff

/-- Every opportunity returned by the up/down batch loop cleared the
minimum-edge threshold. -/
theorem find_opportunities_min_edge (cfg : ScanCfg) (now : ℚ)
    (ms : List PMarket) (s : UpDownOpp) (hs : s ∈ find_opportunities cfg now ms) :
    cfg.min_edge_bp ≤ |s.edge_bp| := by
  unfold find_opportunities at hs
  rw [sortDesc_mem_iff, List.mem_filterMap] at hs
  obtain ⟨m, _, hmap⟩ := hs
  split at hmap
  · rcases hsm : score_market cfg now m with _ | t
    · rw [hsm] at hmap
      exact absurd hmap (by simp)
    · rw [hsm] at hmap
      have hmap2 : (if |t.edge_bp| < cfg.min_edge_bp then none else some t) = some s := hmap
      by_cases hlt : |t.edge_bp| < cfg.min_edge_bp
      · rw [if_pos hlt] at hmap2
        exact absurd hmap2 (by simp)
      · rw [if_neg hlt] at hmap2
        obtain rfl := Option.some.inj hmap2
        exact not_lt.mp hlt
  · exact absurd hmap (by simp)

end PolyAlpha

namespace PolyAlpha

/-- Batch scoring distributes over list append. -/
theorem scoreMany_append (f : Market → ℚ → Except PyErr (Option Opp))
    (xs ys : List Market) (p : ℚ) :
    scoreMany f (xs ++ ys) p = scoreMany f xs p ++ scoreMany f ys p := by
  simp [scoreMany, List.filterMap_append]

/-- A market on which the scorer raises contributes nothing: the
exception is caught inside `score_many` and the loop continues. -/
theorem scoreMany_error_cons (f : Market → ℚ → Except PyErr (Option Opp))
    (b : Market) (ys : List Market) (p : ℚ) (e : PyErr) (hb : f b p = .error e) :
    scoreMany f (b :: ys) p = scoreMany f ys p := by
  simp [scoreMany, hb]

/-- The scanner loop over two strategies appends their batch results in
registration order. -/
theorem runStrategies_pair (f g : Market → ℚ → Except PyErr (Option Opp))
    (ms : List Market) (p : ℚ) :
    runStrategies [f, g] ms p = scoreMany f ms p ++ scoreMany g ms p := by
  simp [runStrategies]

end PolyAlpha

namespace PolyAlpha

/-- Evaluation of the price-target scorer on `mB` at spot 60000. -/
theorem targetScore_mB : targetScore mB 60000 = .ok (some oppB) := by
  rw [targetScore_eval mB 60000 (27/50) (23/50) 50000 (by decide) rfl rfl (by decide) (by norm_num),
    (by decide : targetDirection (pyLower (scoreTitle mB).data) = "above"),
    (by decide : scoreTitle mB = "Will btc be above 50000?")]
  norm_num [targetTrueProb, mB, oppB]

/-- Evaluation of the price-target scorer on `mA` at spot 60000. -/
theorem targetScore_mA : targetScore mA 60000 = .ok (some oppA) := by
  rw [targetScore_eval mA 60000 (89/100) (11/100) 50000 (by decide) rfl rfl (by decide) (by norm_num),
    (by decide : targetDirection (pyLower (scoreTitle mA).data) = "above"),
    (by decide : scoreTitle mA = "Will btc be above 50000?")]
  norm_num [targetTrueProb, mA, oppA]

/-- Evaluation of the price-target scorer on `atM` at spot 100000. -/
theorem targetScore_atM : targetScore atM 100000 = .ok (some oppAt) := by
  rw [targetScore_eval atM 100000 (2/5) (3/5) 100000 (by decide) rfl rfl (by decide) (by norm_num),
    (by decide : targetDirection (pyLower (scoreTitle atM).data) = "unknown"),
    (by decide : scoreTitle atM = "Bitcoin at 100000 by June?")]
  norm_num [targetTrueProb, atM, oppAt, (by decide : ¬ ("unknown" = "above")),
    (by decide : ¬ ("unknown" = "below"))]

/-- Evaluation of the price-target scorer on the zero-strike market. -/
theorem targetScore_bZero : targetScore bZero 60000 = .error .zeroDivisionError :=
  targetScore_zero_strike bZero 60000 (3/10) (7/10) (by decide) rfl rfl (by decide)

/-- Evaluation of the price-target scorer on the `reach`-phrased market:
the keyword is not recognized, so the market is not classified and no
probability is produced. -/
theorem targetScore_reachM : targetScore reachM 120000 = .ok none :=
  targetScore_not_classified reachM 120000 (by decide)

/-- The intraday scorer skips `mB` (no intraday marker). -/
theorem intradayScore_mB : intradayScore mB 60000 = .ok none :=
  intradayScore_not_classified mB 60000 (by decide)

/-- The intraday scorer skips `mA` (no intraday marker). -/
theorem intradayScore_mA : intradayScore mA 60000 = .ok none :=
  intradayScore_not_classified mA 60000 (by decide)

/-- The BTC text filter keeps both concrete price-target markets. -/
theorem filter_btc_mB_mA : filter_btc_markets [mB, mA] = [mB, mA] := by
  simp only [filter_btc_markets, List.filter,
    (by decide : (pyContains (filterBtcHaystack mB) "btc".data ||
      pyContains (filterBtcHaystack mB) "bitcoin".data) = true),
    (by decide : (pyContains (filterBtcHaystack mA) "btc".data ||
      pyContains (filterBtcHaystack mA) "bitcoin".data) = true)]

/-- Full scan evaluation on the two concrete markets: the intraday
strategy contributes nothing, the price-target strategy produces the
two dicts in market order, and the final sort leaves that order
unchanged. -/
theorem run_scan_mB_mA : run_scan [mB, mA] 60000 = [oppB, oppA] := by
  unfold run_scan
  rw [if_neg (by norm_num : ¬ (60000 : ℚ) ≤ 0)]
  simp only [filter_btc_mB_mA]
  rw [if_neg (by simp)]
  rw [runStrategies_pair]
  have hI : scoreMany intradayScore [mB, mA] 60000 = [] := by
    simp [scoreMany, intradayScore_mB, intradayScore_mA]
  have hT : scoreMany targetScore [mB, mA] 60000 = [oppB, oppA] := by
    simp [scoreMany, targetScore_mB, targetScore_mA]
  rw [hI, hT, List.nil_append, sortDesc_scanKey_id]

/-- Evaluation of the up/down scorer on `pmUp` at `now = 0`. -/
theorem score_market_pmUp : score_market cfgDefault 0 pmUp = some upOpp := by
  unfold score_market
  rw [(by decide : is_intraday_btc_updown pmUp = true)]
  norm_num [days_to_expiry, cfgDefault, pmUp, estimate_fair_prob, upOpp]

/-- Evaluation of the up/down batch loop on `[pmUp]`. -/
theorem find_opportunities_pmUp :
    find_opportunities cfgDefault 0 [pmUp] = [upOpp] := by
  unfold find_opportunities
  rw [(by rfl : ([pmUp] : List PMarket) = [pmUp])]
  simp only [List.filterMap, (by decide : is_intraday_btc_updown pmUp = true),
    score_market_pmUp, if_true]
  norm_num [upOpp, cfgDefault, sortDesc, insertDesc]

end PolyAlpha

namespace PolyAlpha

/-- Normalization of the payload carrying 0 on the final YES alias. -/
theorem to_market_rowBuyYesZero : to_market rowBuyYesZero = .ok mBuy0 := rfl

/-- Normalization of the payload carrying 0 on the first YES alias. -/
theorem to_market_rowYesPriceZero : to_market rowYesPriceZero = .ok mYes0 := rfl

end PolyAlpha

namespace PolyAlpha

/-- Evaluation of the price-target scorer on `mBuy0` at spot 60000: the
market with quoted YES price 0.0 is scored, not skipped. -/
theorem targetScore_mBuy0 : targetScore mBuy0 60000 = .ok (some oppBuy0) := by
  rw [targetScore_eval mBuy0 60000 0 1 50000 (by decide) rfl rfl (by decide) (by norm_num),
    (by decide : targetDirection (pyLower (scoreTitle mBuy0).data) = "above"),
    (by decide : scoreTitle mBuy0 = "Will btc be above 50000?")]
  norm_num [targetTrueProb, mBuy0, oppBuy0]

/-- Evaluation of the price-target scorer on `mB` when the spot equals
the extracted strike. -/
theorem targetScore_mB_at_strike : targetScore mB 50000 = .ok (some oppBEq) := by
  rw [targetScore_eval mB 50000 (27/50) (23/50) 50000 (by decide) rfl rfl (by decide) (by norm_num),
    (by decide : targetDirection (pyLower (scoreTitle mB).data) = "above"),
    (by decide : scoreTitle mB = "Will btc be above 50000?")]
  norm_num [targetTrueProb, mB, oppBEq]

end PolyAlpha

/-! ## Claim theorems -/

namespace PolyAlpha

/-- C1: the specification claims market normalization via
src/parser.py::parse_markets never raises and silently skips unusable
items.  The code contradicts its own documentation (the `Market`
docstring shows `parse_markets` passing `question=...`): the
constructor call omits the required `question` parameter, so every dict
payload with a non-empty title raises `TypeError` and aborts the batch.
This theorem evaluates the embedded code at the failing input
`[{"id": "m1", "title": "Bitcoin above 100000?"}]`. -/
theorem C1_parse_markets_raises :
    src_parse_markets rawBatchC1 = .error .typeError := rfl

/-- C2 (amended): the price-target estimator does not implement the
lognormal formula `1 - Phi(ln(K/S)/(sigma*sqrt(T)))`; it ignores sigma
and T entirely and returns the piecewise distance heuristic
`max(0.55, 0.9 - 2*dist)` / `max(0.05, 0.5 - 2*dist)` with
`dist = |spot - strike|/strike`, direction taken from the title
keywords above/over/greater than/at least and below/under/less
than/at most, and probability 0 for an unknown direction. -/
theorem C2_price_target_heuristic (m : Market) (p : ℚ) (r : Opp)
    (h : targetScore m p = .ok (some r)) :
    ∃ (yp np : ℚ) (k : ℕ),
      m.yes_price = some yp ∧ m.no_price = some np ∧
      reSearchD47 (stripCommas (scoreTitle m).data) = some k ∧ (k : ℚ) ≠ 0 ∧
      r.strike = some (k : ℚ) ∧
      r.direction = targetDirection (pyLower (scoreTitle m).data) ∧
      r.true_prob = some
        (if r.direction = "above" then
           (if p > (k : ℚ) then max (11/20) (9/10 - (|p - (k : ℚ)| / (k : ℚ)) * 2)
            else max (1/20) (1/2 - (|p - (k : ℚ)| / (k : ℚ)) * 2))
         else if r.direction = "below" then
           (if p < (k : ℚ) then max (11/20) (9/10 - (|p - (k : ℚ)| / (k : ℚ)) * 2)
            else max (1/20) (1/2 - (|p - (k : ℚ)| / (k : ℚ)) * 2))
         else 0) ∧
      r.edge = r.true_prob.getD 0 - yp := by
  obtain ⟨yp, np, k, hy, hn, hk, hk0, rfl⟩ := targetScore_ok_inv m p r h
  exact ⟨yp, np, k, hy, hn, hk, hk0, rfl, rfl, by simp [targetTrueProb], by simp⟩

/-- C2 witness: the amended heuristic instantiated on a concrete
above-phrased market. -/
theorem C2_price_target_heuristic_witness :
    ∃ (yp np : ℚ) (k : ℕ),
      mB.yes_price = some yp ∧ mB.no_price = some np ∧
      reSearchD47 (stripCommas (scoreTitle mB).data) = some k ∧ (k : ℚ) ≠ 0 ∧
      oppB.strike = some (k : ℚ) ∧
      oppB.direction = targetDirection (pyLower (scoreTitle mB).data) ∧
      oppB.true_prob = some
        (if oppB.direction = "above" then
           (if 60000 > (k : ℚ) then max (11/20) (9/10 - (|60000 - (k : ℚ)| / (k : ℚ)) * 2)
            else max (1/20) (1/2 - (|60000 - (k : ℚ)| / (k : ℚ)) * 2))
         else if oppB.direction = "below" then
           (if 60000 < (k : ℚ) then max (11/20) (9/10 - (|60000 - (k : ℚ)| / (k : ℚ)) * 2)
            else max (1/20) (1/2 - (|60000 - (k : ℚ)| / (k : ℚ)) * 2))
         else 0) ∧
      oppB.edge = oppB.true_prob.getD 0 - yp :=
  C2_price_target_heuristic mB 60000 oppB targetScore_mB

/-- C2 counterexample: the claim reads the keywords `reach`/`dip` as
directional and promises a CDF-based probability for such markets.  On
`reachM` (keyword `reach`, extractable strike 150000, both quotes
present, positive spot) the code returns no estimate at all; on `atM`
(classified through its url) the code returns probability exactly 0,
which no standard-normal CDF value `Phi(z)` or `1 - Phi(z)` can equal. -/
theorem C2_no_lognormal_counterexample :
    pyContains (pyLower (scoreTitle reachM).data) "reach".data = true ∧
    reSearchD47 (stripCommas (scoreTitle reachM).data) = some 150000 ∧
    targetScore reachM 120000 = .ok none ∧
    targetScore atM 100000 = .ok (some oppAt) ∧
    oppAt.true_prob = some 0 :=
  ⟨by decide, by decide, targetScore_reachM, targetScore_atM, rfl⟩

/-- C3 (amended): the scanner's final ordering sorts by the `edge`
attribute with default 0.0; the strategies produce plain dicts, whose
entries are not attributes, so every key is 0.0 and the sort leaves the
production order unchanged (stable, deterministic).  The up/down
strategy's own ordering does sort by absolute edge descending, is a
permutation, and preserves the relative order of tied elements. -/
theorem C3_sort_stable_deterministic :
    (∀ l : List Opp, sortDesc scanSortKey l = l) ∧
    (∀ l : List UpDownOpp,
      ((sortDesc (fun o => |o.edge_bp|) l).Pairwise fun a b => |b.edge_bp| ≤ |a.edge_bp|) ∧
      (sortDesc (fun o => |o.edge_bp|) l).Perm l ∧
      (∀ c : ℚ, (sortDesc (fun o => |o.edge_bp|) l).filter (fun o => decide (|o.edge_bp| = c)) =
        l.filter (fun o => decide (|o.edge_bp| = c)))) :=
  ⟨sortDesc_scanKey_id,
   fun l => ⟨sortDesc_pairwise _ l, sortDesc_perm _ l, fun c => sortDesc_filter _ c l⟩⟩

/-- C3 counterexample: a full scan over two produced opportunities whose
second element has the strictly larger absolute edge — the aggregator's
final ordering is not sorted by absolute edge descending. -/
theorem C3_not_abs_edge_sorted :
    run_scan [mB, mA] 60000 = [oppB, oppA] ∧ |oppA.edge| > |oppB.edge| := by
  refine ⟨run_scan_mB_mA, ?_⟩
  have ha : |oppA.edge| = 17/50 := by
    show |(-(17/50) : ℚ)| = 17/50
    rw [abs_neg, abs_of_pos (show (0:ℚ) < 17/50 by norm_num)]
  have hb : |oppB.edge| = 1/100 := by
    show |(1/100 : ℚ)| = 1/100
    rw [abs_of_pos (show (0:ℚ) < 1/100 by norm_num)]
  rw [ha, hb]
  norm_num

/-- C4: an exception for one (market, strategy) pair is caught inside
`score_many` and excluded; every other market of that strategy and the
whole batch of the other strategy are unaffected. -/
theorem C4_strategy_isolation (f g : Market → ℚ → Except PyErr (Option Opp))
    (xs ys : List Market) (b : Market) (p : ℚ) (e : PyErr)
    (hb : f b p = .error e) :
    scoreMany f (xs ++ b :: ys) p = scoreMany f xs p ++ scoreMany f ys p ∧
    runStrategies [f, g] (xs ++ b :: ys) p =
      (scoreMany f xs p ++ scoreMany f ys p) ++ scoreMany g (xs ++ b :: ys) p := by
  have h1 : scoreMany f (xs ++ b :: ys) p = scoreMany f xs p ++ scoreMany f ys p := by
    rw [scoreMany_append, scoreMany_error_cons f b ys p e hb]
  exact ⟨h1, by rw [runStrategies_pair, h1]⟩

/-- C4 witness: the price-target strategy raises on the zero-strike
market while `mB` and the intraday strategy are unaffected. -/
theorem C4_strategy_isolation_witness :
    scoreMany targetScore ([mB] ++ bZero :: []) 60000 =
      scoreMany targetScore [mB] 60000 ++ scoreMany targetScore [] 60000 ∧
    runStrategies [targetScore, intradayScore] ([mB] ++ bZero :: []) 60000 =
      (scoreMany targetScore [mB] 60000 ++ scoreMany targetScore [] 60000) ++
        scoreMany intradayScore ([mB] ++ bZero :: []) 60000 :=
  C4_strategy_isolation targetScore intradayScore [mB] [] bZero 60000
    .zeroDivisionError targetScore_bZero

/-- C5: a non-positive spot price or an all-filtered market batch makes
the scan return the empty list as a normal outcome, without raising. -/
theorem C5_degenerate_inputs (ms : List Market) (p : ℚ) :
    (p ≤ 0 → run_scan ms p = []) ∧
    (filter_btc_markets ms = [] → run_scan ms p = []) := by
  constructor
  · intro h
    simp [run_scan, h]
  · intro h
    by_cases hp : p ≤ 0
    · simp [run_scan, hp]
    · simp [run_scan, hp, h]

/-- C5 witness: a negative spot price, and a batch whose only market
mentions BTC nowhere the filter looks. -/
theorem C5_degenerate_inputs_witness :
    run_scan [mB] (-1) = [] ∧ run_scan [mUrlBtc] 60000 = [] :=
  ⟨(C5_degenerate_inputs [mB] (-1)).1 (by norm_num),
   (C5_degenerate_inputs [mUrlBtc] 60000).2 (by decide)⟩

/-- C6 (amended): every fair probability the estimators actually return
lies in [0,1] — the price-target heuristic whenever it returns (its
strike is then nonzero), the up/down placeholder 0.5, and the macro
fallback 0.5.  The claim's unrestricted form fails only on the
zero-strike `ZeroDivisionError` path shown in the counterexample. -/
theorem C6_fair_prob_range (m : Market) (p : ℚ) (r : Opp) (q : ℚ)
    (h : targetScore m p = .ok (some r)) (hq : r.true_prob = some q) :
    (0 ≤ q ∧ q ≤ 1) ∧
    (∀ pm : PMarket, 0 ≤ estimate_fair_prob pm ∧ estimate_fair_prob pm ≤ 1) ∧
    (∀ (pm : PMarket) (cp : ℚ) (b : BaseOpp), macroScore pm cp = some b →
      0 ≤ b.fair_prob ∧ b.fair_prob ≤ 1) := by
  refine ⟨?_, fun pm => by norm_num [estimate_fair_prob],
    fun pm cp b hb => by rw [macroScore_fair_half pm cp b hb]; norm_num⟩
  obtain ⟨yp, np, k, hy, hn, hk, hk0, rfl⟩ := targetScore_ok_inv m p r h
  have hq2 : targetTrueProb (targetDirection (pyLower (scoreTitle m).data)) p (k : ℚ) = q := by
    simpa using hq
  have hkpos : (0 : ℚ) < (k : ℚ) := lt_of_le_of_ne (by positivity) (Ne.symm hk0)
  rw [← hq2]
  exact targetTrueProb_mem_unit _ p _ hkpos

/-- C6 witness: the range property instantiated on `mB`. -/
theorem C6_fair_prob_range_witness :
    ((0 : ℚ) ≤ 11/20 ∧ (11/20 : ℚ) ≤ 1) ∧
    (∀ pm : PMarket, 0 ≤ estimate_fair_prob pm ∧ estimate_fair_prob pm ≤ 1) ∧
    (∀ (pm : PMarket) (cp : ℚ) (b : BaseOpp), macroScore pm cp = some b →
      0 ≤ b.fair_prob ∧ b.fair_prob ≤ 1) :=
  C6_fair_prob_range mB 60000 oppB (11/20) targetScore_mB rfl

/-- C6 counterexample: `bZero` is a valid, classified price-target
market, yet the estimator raises `ZeroDivisionError` instead of
returning a probability in [0,1]. -/
theorem C6_zero_strike_raises :
    is_btc_price_target bZero = true ∧
    targetScore bZero 60000 = .error .zeroDivisionError :=
  ⟨by decide, targetScore_bZero⟩

/-- C7 (amended): the scanner classifies a market as BTC-relevant iff
"btc" or "bitcoin" occurs in the lowercased question joined with the
lowercased `markets_group` attribute — url and title are not consulted;
the `BTCBase` variant checks the question plus the hyphenated "btc-"
url pattern only. -/
theorem C7_btc_filter_characterization :
    (∀ (ms : List Market) (m : Market), m ∈ filter_btc_markets ms ↔
      m ∈ ms ∧ (pyContains (filterBtcHaystack m) "btc".data ||
        pyContains (filterBtcHaystack m) "bitcoin".data) = true) ∧
    (∀ pm : PMarket, is_btc_market pm = true ↔
      (pyContains (pyLower pm.question.data) "bitcoin".data ||
       pyContains (pyLower pm.question.data) "btc".data ||
       pyContains (pyLower pm.url.data) "btc-".data) = true) := by
  constructor
  · intro ms m
    simp [filter_btc_markets, List.mem_filter]
  · intro pm
    simp [is_btc_market]

/-- C7 counterexample: a market whose url (but neither question nor
group) contains "btc" is BTC-relevant under the claim's concatenation
but is dropped by the scanner's filter. -/
theorem C7_url_only_btc_dropped :
    claimBtcRelevant mUrlBtc = true ∧ filter_btc_markets [mUrlBtc] = [] := by
  decide

/-- C8: the intraday and price-target scorers return nothing when either
quoted outcome price is absent, and every opportunity the up/down batch
loop returns cleared the configured minimum-edge threshold. -/
theorem C8_skip_guards :
    (∀ (m : Market) (p : ℚ), m.yes_price = none ∨ m.no_price = none →
      intradayScore m p = .ok none) ∧
    (∀ (m : Market) (p : ℚ), m.yes_price = none ∨ m.no_price = none →
      targetScore m p = .ok none) ∧
    (∀ (cfg : ScanCfg) (now : ℚ) (ms : List PMarket) (s : UpDownOpp),
      s ∈ find_opportunities cfg now ms → cfg.min_edge_bp ≤ |s.edge_bp|) :=
  ⟨intradayScore_skip_price, targetScore_skip_price, find_opportunities_min_edge⟩

/-- C8 witness: a market without a YES quote is skipped by both scorers,
and the concrete up/down opportunity cleared the default threshold. -/
theorem C8_skip_guards_witness :
    intradayScore mNoPrice 60000 = .ok none ∧
    targetScore mNoPrice 60000 = .ok none ∧
    cfgDefault.min_edge_bp ≤ |upOpp.edge_bp| :=
  ⟨C8_skip_guards.1 mNoPrice 60000 (Or.inl rfl),
   C8_skip_guards.2.1 mNoPrice 60000 (Or.inl rfl),
   C8_skip_guards.2.2 cfgDefault 0 [pmUp] upOpp
     (by rw [find_opportunities_pmUp]; exact List.mem_singleton.mpr rfl)⟩

/-- C9: when the extracted strike equals the spot price and the question
direction is above or below, the returned fair probability is exactly
0.5. -/
theorem C9_strike_equals_spot (m : Market) (p : ℚ) (r : Opp)
    (h : targetScore m p = .ok (some r)) (hs : r.strike = some p)
    (hd : r.direction = "above" ∨ r.direction = "below") :
    r.true_prob = some (1/2) := by
  obtain ⟨yp, np, k, hy, hn, hk, hk0, rfl⟩ := targetScore_ok_inv m p r h
  have hkp : (k : ℚ) = p := by simpa using hs
  have hmax : max ((1:ℚ)/20) (1/2) = 1/2 := max_eq_right (by norm_num)
  show some (targetTrueProb (targetDirection (pyLower (scoreTitle m).data)) p (k : ℚ)) =
    some (1/2)
  rcases hd with hd | hd
  · have hd2 : targetDirection (pyLower (scoreTitle m).data) = "above" := by simpa using hd
    rw [hd2, ← hkp]
    norm_num [targetTrueProb, hmax]
  · have hd2 : targetDirection (pyLower (scoreTitle m).data) = "below" := by simpa using hd
    rw [hd2, ← hkp]
    norm_num [targetTrueProb, hmax, (by decide : ¬ ("below" = "above"))]

/-- C9 witness: `mB` evaluated at a spot equal to its strike 50000. -/
theorem C9_strike_equals_spot_witness : oppBEq.true_prob = some (1/2) :=
  C9_strike_equals_spot mB 50000 oppBEq targetScore_mB_at_strike rfl (Or.inl rfl)

/-- C10 (amended): a 0 carried on a non-final YES-price alias
(`yesPrice`, `yes_probability` or `yes_prob`) falls through the `or`
chain; when the remaining aliases are absent the normalized price is
`None` and the market is skipped by the price-target scorer.  A 0 on
the final alias `buy_yes` is the value of the whole chain, normalizes
to price 0.0, and the market is scored (see the counterexample). -/
theorem C10_zero_price_alias (row : List (String × PyVal))
    (hm : dictGet row "market" = .vNone)
    (h1 : dictGet row "yesPrice" = .vNum 0)
    (h2 : dictGet row "yes_probability" = .vNone)
    (h3 : dictGet row "yes_prob" = .vNone)
    (h4 : dictGet row "buy_yes" = .vNone)
    (mk : Market) (hok : to_market row = .ok mk) :
    mk.yes_price = none ∧ ∀ p : ℚ, targetScore mk p = .ok none := by
  unfold to_market at hok
  rw [hm] at hok
  have hok2 : to_market_fields row = .ok mk := hok
  unfold to_market_fields at hok2
  cases ht : iterTags (pyOr (dictGet row "tags") (.vList [])) with
  | error e =>
      rw [ht] at hok2
      exact absurd hok2 (by simp)
  | ok tags =>
      rw [ht] at hok2
      obtain rfl := Except.ok.inj hok2
      have hyp : (pyFlt (pyOr (dictGet row "yesPrice") (pyOr (dictGet row "yes_probability")
          (pyOr (dictGet row "yes_prob") (dictGet row "buy_yes"))))) = none := by
        rw [h1, h2, h3, h4]
        norm_num [pyOr, pyTruthy, pyFlt]
      exact ⟨hyp, fun p => targetScore_skip_price _ p (Or.inl hyp)⟩

/-- C10 witness: the payload with `yesPrice = 0` and the later aliases
absent normalizes to an absent YES price and is skipped. -/
theorem C10_zero_price_alias_witness :
    mYes0.yes_price = none ∧ ∀ p : ℚ, targetScore mYes0 p = .ok none :=
  C10_zero_price_alias rowYesPriceZero rfl rfl rfl rfl rfl mYes0 to_market_rowYesPriceZero

/-- C10 counterexample: a 0 on the final alias `buy_yes` does not fall
through to an absent price — the market normalizes with YES price 0.0
and is scored at that quoted price instead of being skipped. -/
theorem C10_buy_yes_zero_scored :
    to_market rowBuyYesZero = .ok mBuy0 ∧ mBuy0.yes_price = some 0 ∧
    targetScore mBuy0 60000 = .ok (some oppBuy0) :=
  ⟨to_market_rowBuyYesZero, rfl, targetScore_mBuy0⟩

end PolyAlpha
